import Mathlib

/-!
# Verification of the ModupeC download core

Shallow embedding of the download-orchestration core of the repository:

* `Cookies` — `src/utils/cookies.ts` (credential resolver and the
  authenticated execution wrapper `executeWithCookieRetry`);
* `DP` — `src/pages/api/download-progress.ts` (progress parser
  `parseProgress`, SSE event emission, close/error/disconnect handlers);
* `Lifecycle` — the idempotent `cleanup` guard of `src/unnamed/part_001`
  and of the file-serving handler in `src/pages/api/video-info.ts`;
* `Serve` — the path check of the file-serving handler
  (`src/pages/api/video-info.ts`, lines 312-317).

Machine floats of the source are modelled as `ℚ`; the filesystem is an
explicit list of existing paths; subprocess runs are oracles
(`Except String String`).
-/

-- Allow kernel evaluation of closed `ℚ` facts by `decide` (core seals the
-- rational operations for performance only; their definitions are the
-- mathematical ones).
set_option allowUnsafeReducibility true
attribute [local semireducible] Rat.add Rat.mul Rat.inv Rat.ofScientific Rat.sub Rat.neg

/-- Does the character list `pre` occur as a leading segment of the second
list? -/
def charsStartWith : List Char → List Char → Bool
  | [], _ => true
  | _ :: _, [] => false
  | a :: asx, b :: bs => a = b && charsStartWith asx bs

/-- Does the character list `sub` occur contiguously anywhere in the second
list? -/
def charsContain (sub : List Char) : List Char → Bool
  | [] => charsStartWith sub []
  | c :: cs => charsStartWith sub (c :: cs) || charsContain sub cs

/-- The substring test used throughout `src/pages/api/download-progress.ts`
and `src/utils/cookies.ts`: JavaScript `a.includes(b)`. -/
def stringIncludes (s sub : String) : Bool :=
  charsContain sub.data s.data

namespace Cookies

/-- The candidate credential-file locations scanned by `getCookiesFilePath`
(`src/utils/cookies.ts` lines 11-14): `path.join(cwd, 'youtube-cookies.txt')`
then `path.join(cwd, 'cookies.txt')`.  `path.join` of an absolute directory
and a bare filename is concatenation with a slash. -/
def cookieCandidatePaths (cwd : String) : List String :=
  [cwd ++ "/youtube-cookies.txt", cwd ++ "/cookies.txt"]

/-- `getCookiesFilePath` (`src/utils/cookies.ts` lines 10-24): return the
first candidate path that exists on disk, else `none`.  The filesystem is
modelled as the list `fs` of existing paths. -/
def getCookiesFilePath (cwd : String) (fs : List String) : Option String :=
  (cookieCandidatePaths cwd).find? (fun p => fs.contains p)

/-- `hasCookiesFile` (`src/utils/cookies.ts` lines 50-52). -/
def hasCookiesFile (cwd : String) (fs : List String) : Bool :=
  (getCookiesFilePath cwd fs).isSome

/-- `getCookiesArgs` (`src/utils/cookies.ts` lines 34-45): empty unless
`forceUseCookies`; when forcing, `['--cookies', path]` if a cookies file is
found, else empty. -/
def getCookiesArgs (cwd : String) (fs : List String) (forceUseCookies : Bool) :
    List String :=
  if !forceUseCookies then []
  else
    match getCookiesFilePath cwd fs with
    | some cookiesPath => ["--cookies", cookiesPath]
    | none => []

/-- Which mode a subprocess invocation ran in (used to record the order of
attempts made by `executeWithCookieRetry`). -/
inductive Attempt where
  | withCreds
  | withoutCreds
deriving DecidableEq, Repr

/-- The bot-detection / sign-in heuristic of `executeWithCookieRetry`
(`src/utils/cookies.ts` lines 141-143). -/
def needsAuth (errorMsg : String) : Bool :=
  stringIncludes errorMsg "Sign in" ||
  stringIncludes errorMsg "bot" ||
  stringIncludes errorMsg "not available"

/-- `executeWithCookieRetry` (`src/utils/cookies.ts` lines 105-157).
The two possible subprocess invocations are oracles: `runCookies` is the
outcome of `executeCommand` with the credential arguments inserted,
`runPlain` the outcome without them.  Returns the result
(`output × usedCookies`, or the thrown error) together with the ordered
list of attempts actually made. -/
def executeWithCookieRetry (cwd : String) (fs : List String)
    (runCookies runPlain : Except String String) :
    Except String (String × Bool) × List Attempt :=
  if hasCookiesFile cwd fs then
    -- lines 112-131: cookies exist, use them from the start
    match runCookies with
    | .ok output => (.ok (output, true), [.withCreds])
    | .error e =>
      -- line 121-129: fallback without cookies; on double failure
      -- throw the original (credentialed) error
      match runPlain with
      | .ok output => (.ok (output, false), [.withCreds, .withoutCreds])
      | .error _ => (.error e, [.withCreds, .withoutCreds])
  else
    -- lines 134-156: no cookies file, run without cookies
    match runPlain with
    | .ok output => (.ok (output, false), [.withoutCreds])
    | .error e =>
      if needsAuth e && hasCookiesFile cwd fs then
        -- lines 147-153: safety-net retry with cookies; its own failure
        -- propagates uncaught
        match runCookies with
        | .ok output => (.ok (output, true), [.withoutCreds, .withCreds])
        | .error e2 => (.error e2, [.withoutCreds, .withCreds])
      else (.error e, [.withoutCreds])

end Cookies

namespace DP

/-! ## The progress parser of `src/pages/api/download-progress.ts`

`parseProgress` (lines 156-222) extracts a percent figure and a size figure
from one chunk of subprocess output via the regular expressions

* `/\[download\]\s+(\d+\.?\d*)%/` and
* `/of\s+(~)?(\d+\.?\d*)(MiB|KiB|GiB)/i`,

then updates per-download mutable counters and conditionally emits a
`progress` event.  The scanners below implement exactly those two patterns
(leftmost match, greedy number — for these patterns greedy scanning without
backtracking coincides with the regex semantics, since the characters a
number consumes can never belong to the `%` or unit literal that follows).
`parseFloat` of a `\d+\.?\d*` capture is exact decimal reading, modelled
in `ℚ`. -/

/-- JavaScript `\s` on the whitespace characters that occur in tool
output. -/
def isWs (c : Char) : Bool :=
  c = ' ' || c = '\t' || c = '\n' || c = '\r'

/-- Numeric value of a decimal digit list, most significant first. -/
def natOfDigits (ds : List Char) : ℕ :=
  ds.foldl (fun n c => 10 * n + (c.toNat - '0'.toNat)) 0

/-- Fractional value of the digit list after the decimal point. -/
def fracOfDigits (ds : List Char) : ℚ :=
  (natOfDigits ds : ℚ) / (10 : ℚ) ^ ds.length

/-- Scan a `\d+\.?\d*` number (greedy) at the head of `cs` and read it as
`parseFloat` would; returns the value and the rest of the input. -/
def scanNumber (cs : List Char) : Option (ℚ × List Char) :=
  let ip := cs.takeWhile Char.isDigit
  let r1 := cs.dropWhile Char.isDigit
  if ip.isEmpty then none
  else
    match r1 with
    | '.' :: r2 =>
      some ((natOfDigits ip : ℚ) + fracOfDigits (r2.takeWhile Char.isDigit),
        r2.dropWhile Char.isDigit)
    | _ => some ((natOfDigits ip : ℚ), r1)

/-- Drop an exact (case-sensitive) literal from the head of the input. -/
def dropLit : List Char → List Char → Option (List Char)
  | [], cs => some cs
  | _ :: _, [] => none
  | l :: ls, c :: cs => if c = l then dropLit ls cs else none

/-- Drop a literal from the head of the input, ignoring case (the `/i`
flag of the size pattern). -/
def dropLitCI : List Char → List Char → Option (List Char)
  | [], cs => some cs
  | _ :: _, [] => none
  | l :: ls, c :: cs => if c.toLower = l.toLower then dropLitCI ls cs else none

/-- Drop `\s+` (one or more whitespace characters). -/
def dropWs1 (cs : List Char) : Option (List Char) :=
  if (cs.takeWhile isWs).isEmpty then none else some (cs.dropWhile isWs)

/-- Try the pattern `\[download\]\s+(\d+\.?\d*)%` anchored at the head of
the input; return the percent capture. -/
def percentAt (cs : List Char) : Option ℚ :=
  (dropLit "[download]".data cs).bind fun r1 =>
  (dropWs1 r1).bind fun r2 =>
  (scanNumber r2).bind fun vr =>
  match vr.2 with
  | '%' :: _ => some vr.1
  | _ => none

/-- The three size units `(MiB|KiB|GiB)` matched case-insensitively at the
head of the input; returns the captured unit text as written. -/
def unitAt : List Char → Option String
  | c1 :: c2 :: c3 :: _ =>
    if (c1.toLower = 'm' || c1.toLower = 'k' || c1.toLower = 'g') &&
        c2.toLower = 'i' && c3.toLower = 'b' then
      some (String.mk [c1, c2, c3])
    else none
  | _ => none

/-- Try the pattern `of\s+(~)?(\d+\.?\d*)(MiB|KiB|GiB)` (case-insensitive)
anchored at the head of the input; return the number and unit captures. -/
def sizeAt (cs : List Char) : Option (ℚ × String) :=
  (dropLitCI "of".data cs).bind fun r1 =>
  (dropWs1 r1).bind fun r2 =>
  (scanNumber (match r2 with | '~' :: t => t | _ => r2)).bind fun vr =>
  (unitAt vr.2).map fun u => (vr.1, u)

/-- Leftmost-match regex search: try the anchored pattern at every suffix,
left to right. -/
def searchMatch {β : Type} (f : List Char → Option β) : List Char → Option β
  | [] => f []
  | c :: cs =>
    match f (c :: cs) with
    | some b => some b
    | none => searchMatch f cs

/-- `output.match(/\[download\]\s+(\d+\.?\d*)%/)`, capture group 1 as a
number (line 159, read at line 165). -/
def matchPercent (s : String) : Option ℚ :=
  searchMatch percentAt s.data

/-- `output.match(/of\s+(~)?(\d+\.?\d*)(MiB|KiB|GiB)/i)`, capture groups 2
(number) and 3 (unit) (line 160, read at lines 166-167). -/
def sizeCapture (s : String) : Option (ℚ × String) :=
  searchMatch sizeAt s.data

/-- The unit conversion of `parseProgress` (lines 170-177): the captured
unit is lowercased; GiB multiplies by 1024, KiB divides by 1024, MiB is
taken as megabytes directly. -/
def convertToMB (sizeValue : ℚ) (unit : String) : ℚ :=
  if unit = "gib" then sizeValue * 1024
  else if unit = "kib" then sizeValue / 1024
  else sizeValue

/-- JavaScript `toLowerCase()` on the ASCII unit captures: character-wise
lowering. -/
def toLowerStr (s : String) : String :=
  String.mk (s.data.map Char.toLower)

/-- The size figure of a chunk, normalized to megabytes (lines 166-177). -/
def matchSizeMB (s : String) : Option ℚ :=
  (sizeCapture s).map fun vu => convertToMB vu.1 (toLowerStr vu.2)

/-- The per-download mutable counters of the handler (lines 147-152). -/
structure PState where
  firstFileSize : ℚ
  secondFileSize : ℚ
  currentFileProgress : ℚ
  firstFileComplete : Bool
  lastSentProgress : ℚ
  accumulatedMB : ℚ
deriving DecidableEq, Repr

/-- Initial counter values (lines 147-152): all zero, not complete. -/
def initialPState : PState :=
  { firstFileSize := 0, secondFileSize := 0, currentFileProgress := 0,
    firstFileComplete := false, lastSentProgress := 0, accumulatedMB := 0 }

/-- Stream-switch detection (lines 179-190): the first observed size
becomes `firstFileSize`; a later size differing from it by more than
0.1 MB marks the first stream complete, records the second stream's size
and banks the first size into `accumulatedMB`. -/
def detectStreams (s : PState) (sizeMB : ℚ) : PState :=
  if s.firstFileSize = 0 then { s with firstFileSize := sizeMB }
  else if !s.firstFileComplete && |sizeMB - s.firstFileSize| > 1 / 10 then
    { s with
        firstFileComplete := true
        secondFileSize := sizeMB
        accumulatedMB := s.firstFileSize }
  else s

/-- Combined-progress computation (lines 194-208): on the second stream the
total is the sum of both sizes and the downloaded amount is the banked MB
plus the in-progress fraction of the second stream; otherwise only the
first stream counts.  Zero total yields zero. -/
def calcCombined (s : PState) : ℚ :=
  let totalSize :=
    if s.firstFileComplete then s.firstFileSize + s.secondFileSize
    else s.firstFileSize
  let totalDownloaded :=
    if s.firstFileComplete then
      s.accumulatedMB + s.secondFileSize * s.currentFileProgress / 100
    else s.firstFileSize * s.currentFileProgress / 100
  if totalSize > 0 then totalDownloaded / totalSize * 100 else 0

/-- One call of `parseProgress` on one chunk of output (lines 156-222):
when both regexes match, update the stream-detection state, record the
current percent, compute combined progress, and emit its floor iff that
floor strictly exceeds the floor of the last sent progress (in which case
`lastSentProgress` becomes the unrounded combined value).  Returns the new
state and the emitted `progress` payload, if any. -/
def parseProgressStep (s : PState) (output : String) : PState × Option ℤ :=
  match matchPercent output, matchSizeMB output with
  | some progress, some sizeMB =>
    let s1 := detectStreams s sizeMB
    let s2 := { s1 with currentFileProgress := progress }
    let combinedProgress := calcCombined s2
    let roundedProgress := ⌊combinedProgress⌋
    if roundedProgress > ⌊s2.lastSentProgress⌋ then
      ({ s2 with lastSentProgress := combinedProgress }, some roundedProgress)
    else (s2, none)
  | _, _ => (s, none)

/-- Feed a sequence of output chunks through `parseProgress`, collecting
the emitted `progress` payloads in order. -/
def runLines (s : PState) : List String → PState × List ℤ
  | [] => (s, [])
  | l :: ls =>
    let step := parseProgressStep s l
    let rest := runLines step.1 ls
    (rest.1, step.2.toList ++ rest.2)

/-! ## The SSE event stream of the download handler

`src/pages/api/download-progress.ts` lines 143-336: after the initial
`start` and `progress 0` events, all emission happens in callbacks —
stdout data, stderr data, the 10-second merge heartbeat interval, process
close, process spawn error, and request close.  Each callback firing is an
observation; the handler state and the events each one sends are modelled
below. -/

/-- The SSE event kinds emitted by the handler (payloads other than the
progress percent are irrelevant to the claims). -/
inductive Ev where
  | start
  | progress (n : ℤ)
  | merging
  | complete
  | error
deriving DecidableEq, Repr

/-- One callback firing.  `fileExists` oracles give the result of the
`fs.existsSync(tempFilePath)` checks at that moment. -/
inductive Obs where
  | stdoutData (output : String)
  | stderrData (output : String)
  | mergeTick
  | procClose (code : ℤ) (fileExists : Bool)
  | procError (fileExists : Bool)
  | reqClose (fileExists : Bool)
deriving DecidableEq, Repr

/-- Callback-visible handler state: the parser counters plus the
`isMerging` (line 153) and `downloadSuccess` (line 278) flags, whether the
process `close` event has fired (clearing the heartbeat interval, lines
242/271), whether `proc.kill()` was called, and whether the staging file
has been unlinked. -/
structure HState where
  ps : PState
  isMerging : Bool
  downloadSuccess : Bool
  procClosed : Bool
  procKilled : Bool
  tempFileDeleted : Bool
deriving DecidableEq, Repr

/-- Handler state right after the `start` and `progress 0` events. -/
def initialHState : HState :=
  { ps := initialPState, isMerging := false, downloadSuccess := false,
    procClosed := false, procKilled := false, tempFileDeleted := false }

/-- Merge-marker detection (lines 231 and 260). -/
def isMergerOutput (output : String) : Bool :=
  stringIncludes output "[Merger]" || stringIncludes output "Merging formats"

/-- Error-marker detection on stderr (line 254). -/
def isErrorOutput (output : String) : Bool :=
  stringIncludes output "ERROR:" || stringIncludes output "Conversion failed"

/-- The deletion condition of the `req.on('close')` handler (line 332):
unlink only when the download was not recorded successful and the staging
file exists. -/
def reqCloseDeletes (s : HState) (fileExists : Bool) : Bool :=
  !s.downloadSuccess && fileExists

/-- One callback firing of the handler (lines 226-336), returning the new
state and the events sent, in order. -/
def handleObs (s : HState) : Obs → HState × List Ev
  | .stdoutData output =>
    -- lines 226-247: merge detection, then parseProgress
    let m := isMergerOutput output && !s.isMerging
    let s1 := if m then { s with isMerging := true } else s
    let step := parseProgressStep s1.ps output
    ({ s1 with ps := step.1 },
      (if m then [Ev.merging] else []) ++ (step.2.map Ev.progress).toList)
  | .stderrData output =>
    -- lines 249-276: error detection, merge detection, then parseProgress
    let errEvs := if isErrorOutput output then [Ev.error] else []
    let m := isMergerOutput output && !s.isMerging
    let s1 := if m then { s with isMerging := true } else s
    let step := parseProgressStep s1.ps output
    ({ s1 with ps := step.1 },
      errEvs ++ (if m then [Ev.merging] else []) ++
        (step.2.map Ev.progress).toList)
  | .mergeTick =>
    -- the 10-second heartbeat of lines 237-242 / 266-271: alive only once
    -- merging started and until the process close clears the interval
    (s, if s.isMerging && !s.procClosed then [Ev.merging] else [])
  | .procClose code fileExists =>
    -- lines 280-316: complete when exit 0 and the file appears; error (and
    -- unlink of any partial file) otherwise
    let s1 := { s with procClosed := true }
    if code = 0 then
      if fileExists then ({ s1 with downloadSuccess := true }, [Ev.complete])
      else (s1, [Ev.error])
    else
      ({ s1 with tempFileDeleted := s1.tempFileDeleted || fileExists },
        [Ev.error])
  | .procError fileExists =>
    -- lines 318-326: spawn error
    ({ s with tempFileDeleted := s.tempFileDeleted || fileExists }, [Ev.error])
  | .reqClose fileExists =>
    -- lines 328-336: kill the subprocess; unlink unless the download
    -- already succeeded (the file-serving endpoint then owns cleanup)
    ({ s with
        procKilled := true
        tempFileDeleted := s.tempFileDeleted || reqCloseDeletes s fileExists },
      [])

/-- Run a sequence of callback firings, collecting all events in order. -/
def runObs (s : HState) : List Obs → HState × List Ev
  | [] => (s, [])
  | o :: os =>
    let step := handleObs s o
    let rest := runObs step.1 os
    (rest.1, step.2 ++ rest.2)

/-- The full SSE trace of one download: the unconditional `start` and
`progress 0` events (lines 143-144) followed by the callback-driven
events. -/
def fullTrace (obs : List Obs) : List Ev :=
  Ev.start :: Ev.progress 0 :: (runObs initialHState obs).2

/-- The claim's predicate: once a `complete` or `error` event has been
emitted, no further event of any kind follows. -/
def noEventAfterTerminal : List Ev → Bool
  | [] => true
  | e :: rest =>
    if e = Ev.complete || e = Ev.error then rest.isEmpty
    else noEventAfterTerminal rest

/-- The callbacks that can still fire after the subprocess's `close` event
in Node: the 10-second heartbeat interval (until its `proc.once('close')`
clearing runs) and the request's own `close` handler.  The subprocess's
data callbacks cannot fire after its close event, and `close`/spawn-error
fire at most once. -/
def postCloseObs : Obs → Bool
  | .mergeTick => true
  | .reqClose _ => true
  | _ => false

end DP

namespace Lifecycle

/-! ## The idempotent cleanup guard

`src/unnamed/part_001` lines 166-213 and `src/pages/api/video-info.ts`
lines 340-381 both guard the staging-file removal with a `cleanupDone`
flag that is checked and set before any asynchronous work: in Node's
single-threaded callback model the check-and-set is atomic with respect to
the other triggers. -/

/-- Guard state: the `cleanupDone` flag plus a count of how many times the
removal body (stream destroy, grace delay, `unlink`) has run. -/
structure CState where
  cleanupDone : Bool
  unlinkRuns : ℕ
deriving DecidableEq, Repr

/-- State when the staging file is created: guard unset, no removals. -/
def initialCState : CState := { cleanupDone := false, unlinkRuns := 0 }

/-- `cleanup(reason)`: return immediately when the guard is set; otherwise
set it and run the removal body once.  The reason string only affects
logging. -/
def cleanup (s : CState) (_reason : String) : CState :=
  if s.cleanupDone then s
  else { cleanupDone := true, unlinkRuns := s.unlinkRuns + 1 }

/-- Fire a sequence of termination triggers, each invoking `cleanup`. -/
def runCleanups (s : CState) : List String → CState
  | [] => s
  | r :: rs => runCleanups (cleanup s r) rs

end Lifecycle

namespace Negotiate

/-! ## The format decision of the download handler

`src/pages/api/download-progress.ts` lines 46-73: inspect the format via
the extraction tool; on success read the codec fields, on any failure fall
back to the identifier heuristic.  The inspection subprocess call is an
oracle (`Except` of the parsed JSON codec fields). -/

/-- The codec fields read from the inspection JSON; `none` models an
absent/null field. -/
structure InspectData where
  acodec : Option String
  vcodec : Option String
deriving DecidableEq, Repr

/-- JavaScript truthiness of an optional string field: undefined, null and
the empty string are falsy. -/
def jsTruthy : Option String → Bool
  | none => false
  | some s => !(s == "")

/-- Lines 48-70: the `(isAudio, hasAudio)` decision.  On successful
inspection `hasAudio` is `data.acodec && data.acodec !== "none"` and
`isAudio` is `data.vcodec === "none" || !data.vcodec`; if the inspection
call throws (tool error or unparseable JSON) the catch block classifies by
identifier substrings and the caller's combined hint. -/
def formatDecision (inspection : Except String InspectData)
    (formatId : String) (isCombined : Option String) : Bool × Bool :=
  match inspection with
  | .ok data =>
    ((data.vcodec == some "none") || !jsTruthy data.vcodec,
      jsTruthy data.acodec && !(data.acodec == some "none"))
  | .error _ =>
    let isAudio := stringIncludes formatId "251" || stringIncludes formatId "140"
    (isAudio, (isCombined == some "true") || isAudio)

/-- Line 73: the effective format expression handed to the retrieval
tool. -/
def formatToDownload (hasAudio : Bool) (formatId : String) : String :=
  if hasAudio then formatId else formatId ++ "+bestaudio"

end Negotiate

namespace Serve

/-! ## The file-serving path check

`src/pages/api/video-info.ts` lines 312-317 (the download-file handler):
`path.normalize(filePath)` must `startsWith(DOWNLOADS_DIR)` or the request
is rejected with 403 before any filesystem access. -/

/-- Split a character list on `/` into segments. -/
def splitSlash : List Char → List (List Char)
  | [] => [[]]
  | '/' :: cs => [] :: splitSlash cs
  | c :: cs =>
    match splitSlash cs with
    | s :: ss => (c :: s) :: ss
    | [] => [[c]]

/-- The segment loop of Node's posix `path.normalize`: drop empty and `.`
segments; `..` pops the previous segment, accumulates at the front of a
relative path, and vanishes at the root of an absolute one.  `acc` holds
the kept segments in reverse. -/
def normSegs (isAbs : Bool) (acc : List (List Char)) :
    List (List Char) → List (List Char)
  | [] => acc
  | seg :: rest =>
    if seg = [] || seg = ['.'] then normSegs isAbs acc rest
    else if seg = ['.', '.'] then
      match acc with
      | [] => normSegs isAbs (if isAbs then [] else [seg]) rest
      | a :: accRest =>
        if a = ['.', '.'] then normSegs isAbs (seg :: a :: accRest) rest
        else normSegs isAbs accRest rest
    else normSegs isAbs (seg :: acc) rest

/-- Join segments with `/` separators. -/
def joinSegs : List (List Char) → List Char
  | [] => []
  | [s] => s
  | s :: ss => s ++ '/' :: joinSegs ss

/-- Node's posix `path.normalize`: resolve `.`/`..`, collapse repeated
separators, preserve a trailing slash on a non-root result. -/
def pathNormalize (p : String) : String :=
  if p = "" then "."
  else
    let cs := p.data
    let isAbs := charsStartWith ['/'] cs
    let trail := charsStartWith ['/'] cs.reverse
    let core := joinSegs ((normSegs isAbs [] (splitSlash cs)).reverse)
    if isAbs then
      if core = [] then "/"
      else String.mk ('/' :: core ++ (if trail then ['/'] else []))
    else
      if core = [] then (if trail then "./" else ".")
      else String.mk (core ++ (if trail then ['/'] else []))

/-- `DOWNLOADS_DIR = path.join(process.cwd(), 'downloads')`
(`video-info.ts` line 294). -/
def downloadsDir (cwd : String) : String := cwd ++ "/downloads"

/-- The handler's security gate (lines 313-314): the request passes iff
`path.normalize(filePath).startsWith(DOWNLOADS_DIR)`; otherwise it is
rejected with 403 before any file is opened, streamed or deleted. -/
def pathAllowed (cwd filePath : String) : Bool :=
  charsStartWith (downloadsDir cwd).data (pathNormalize filePath).data

/-- The claim's predicate, from the spec's words: the normalized path lies
within the designated downloads directory — it is the directory itself or
a `/`-separated descendant of it. -/
def liesWithinDownloads (cwd filePath : String) : Bool :=
  ((pathNormalize filePath).data == (downloadsDir cwd).data) ||
    charsStartWith ((downloadsDir cwd).data ++ ['/']) (pathNormalize filePath).data

end Serve

/-- C10: `getCookiesArgs` returns `[]` whenever `forceUseCookies` is false,
even if a cookies file exists; it returns `['--cookies', path]` exactly when
forcing and a cookies file is found, and `[]` when forcing with no file. -/
theorem C10_getCookiesArgs_force_gate (cwd : String) (fs : List String) :
    Cookies.getCookiesArgs cwd fs false = [] ∧
    (∀ p, Cookies.getCookiesFilePath cwd fs = some p →
      Cookies.getCookiesArgs cwd fs true = ["--cookies", p]) ∧
    (Cookies.getCookiesFilePath cwd fs = none →
      Cookies.getCookiesArgs cwd fs true = []) := by
  refine ⟨rfl, ?_, ?_⟩
  · intro p hp
    simp [Cookies.getCookiesArgs, hp]
  · intro hp
    simp [Cookies.getCookiesArgs, hp]

/-- Witness for C10 at concrete filesystems: a cookies file present but not
forced gives `[]`; forced with a file gives the `--cookies` arguments;
forced with an empty filesystem gives `[]`. -/
theorem C10_getCookiesArgs_force_gate_witness :
    Cookies.getCookiesArgs "/srv/app" ["/srv/app/cookies.txt"] false = [] ∧
    Cookies.getCookiesArgs "/srv/app" ["/srv/app/cookies.txt"] true =
      ["--cookies", "/srv/app/cookies.txt"] ∧
    Cookies.getCookiesArgs "/srv/app" [] true = [] := by
  refine ⟨(C10_getCookiesArgs_force_gate "/srv/app" ["/srv/app/cookies.txt"]).1,
    (C10_getCookiesArgs_force_gate "/srv/app" ["/srv/app/cookies.txt"]).2.1
      "/srv/app/cookies.txt" (by decide),
    (C10_getCookiesArgs_force_gate "/srv/app" []).2.2 (by decide)⟩

/-- C5: with a credential file present, `executeWithCookieRetry` tries the
credentialed run first; if it fails there is exactly one uncredentialed
retry; if that also fails the surfaced error is the credentialed attempt's;
if the retry succeeds the result carries `usedCookies = false`. -/
theorem C5_cookie_retry_original_error (cwd : String) (fs : List String)
    (runCookies runPlain : Except String String)
    (hc : Cookies.hasCookiesFile cwd fs = true) :
    (Cookies.executeWithCookieRetry cwd fs runCookies runPlain).2.head? =
      some Cookies.Attempt.withCreds ∧
    (∀ e, runCookies = .error e →
      (Cookies.executeWithCookieRetry cwd fs runCookies runPlain).2 =
        [Cookies.Attempt.withCreds, Cookies.Attempt.withoutCreds]) ∧
    (∀ e e2, runCookies = .error e → runPlain = .error e2 →
      (Cookies.executeWithCookieRetry cwd fs runCookies runPlain).1 = .error e) ∧
    (∀ e out, runCookies = .error e → runPlain = .ok out →
      (Cookies.executeWithCookieRetry cwd fs runCookies runPlain).1 =
        .ok (out, false)) := by
  refine ⟨?_, ?_, ?_, ?_⟩
  · cases runCookies with
    | ok o => simp [Cookies.executeWithCookieRetry, hc]
    | error e =>
      cases runPlain with
      | ok o => simp [Cookies.executeWithCookieRetry, hc]
      | error e2 => simp [Cookies.executeWithCookieRetry, hc]
  · intro e he
    subst he
    cases runPlain with
    | ok o => simp [Cookies.executeWithCookieRetry, hc]
    | error e2 => simp [Cookies.executeWithCookieRetry, hc]
  · intro e e2 he hp
    subst he; subst hp
    simp [Cookies.executeWithCookieRetry, hc]
  · intro e out he hp
    subst he; subst hp
    simp [Cookies.executeWithCookieRetry, hc]

/-- C1: once the first stream is complete and a second stream size has been
observed, the combined progress computed by `parseProgress` equals
`(first + second * percent / 100) / (first + second) * 100` and lies in
`[0, 100]`. -/
theorem C1_combined_progress_formula (s : DP.PState)
    (hc : s.firstFileComplete = true)
    (hacc : s.accumulatedMB = s.firstFileSize)
    (h1 : 0 ≤ s.firstFileSize) (h2 : 0 ≤ s.secondFileSize)
    (hpos : 0 < s.firstFileSize + s.secondFileSize)
    (hp0 : 0 ≤ s.currentFileProgress) (hp1 : s.currentFileProgress ≤ 100) :
    DP.calcCombined s =
      (s.firstFileSize + s.secondFileSize * s.currentFileProgress / 100) /
        (s.firstFileSize + s.secondFileSize) * 100 ∧
    0 ≤ DP.calcCombined s ∧ DP.calcCombined s ≤ 100 := by
  have heq : DP.calcCombined s =
      (s.firstFileSize + s.secondFileSize * s.currentFileProgress / 100) /
        (s.firstFileSize + s.secondFileSize) * 100 := by
    unfold DP.calcCombined
    simp [hc, hacc, hpos]
  refine ⟨heq, ?_, ?_⟩
  · rw [heq]
    have hnum : 0 ≤ s.firstFileSize + s.secondFileSize * s.currentFileProgress / 100 := by
      nlinarith
    have := div_nonneg hnum hpos.le
    linarith
  · rw [heq]
    have hle : s.firstFileSize + s.secondFileSize * s.currentFileProgress / 100 ≤
        s.firstFileSize + s.secondFileSize := by nlinarith
    have := (div_le_one hpos).mpr hle
    linarith

/-- Witness for C1: a completed 10 MB first stream and a 90 MB second
stream observed at 50% — reached by running the parser on two concrete
progress lines — give combined progress (10 + 45)/100 · 100 = 55. -/
theorem C1_combined_progress_formula_witness :
    DP.calcCombined
        { firstFileSize := 10, secondFileSize := 90, currentFileProgress := 50,
          firstFileComplete := true, lastSentProgress := 0, accumulatedMB := 10 } =
      (10 + 90 * 50 / 100) / (10 + 90) * 100 ∧
    DP.calcCombined
        { firstFileSize := 10, secondFileSize := 90, currentFileProgress := 50,
          firstFileComplete := true, lastSentProgress := 0, accumulatedMB := 10 } = 55 ∧
    DP.runLines DP.initialPState
        ["[download]   0.0% of 10.00MiB at 1.00MiB/s ETA 00:10",
         "[download]  50.0% of 90.00MiB at 1.00MiB/s ETA 01:00"] =
      ({ firstFileSize := 10, secondFileSize := 90, currentFileProgress := 50,
         firstFileComplete := true, lastSentProgress := 55, accumulatedMB := 10 },
       [55]) := by
  refine ⟨(C1_combined_progress_formula
      { firstFileSize := 10, secondFileSize := 90, currentFileProgress := 50,
        firstFileComplete := true, lastSentProgress := 0, accumulatedMB := 10 }
      rfl rfl (by norm_num) (by norm_num) (by norm_num) (by norm_num)
      (by norm_num)).1, by decide, by decide⟩

/-- `detectStreams` never touches `lastSentProgress`. -/
theorem detectStreams_lastSent (s : DP.PState) (m : ℚ) :
    (DP.detectStreams s m).lastSentProgress = s.lastSentProgress := by
  unfold DP.detectStreams
  split
  · rfl
  · split
    · rfl
    · rfl

/-- One `parseProgress` call either emits nothing and keeps
`lastSentProgress`, or emits a floor value strictly above the floor of the
previous `lastSentProgress`, which becomes the floor of the new one. -/
theorem parseProgressStep_spec (s : DP.PState) (l : String) :
    ((DP.parseProgressStep s l).2 = none ∧
      (DP.parseProgressStep s l).1.lastSentProgress = s.lastSentProgress) ∨
    (∃ r, (DP.parseProgressStep s l).2 = some r ∧
      ⌊s.lastSentProgress⌋ < r ∧
      ⌊(DP.parseProgressStep s l).1.lastSentProgress⌋ = r) := by
  unfold DP.parseProgressStep
  cases hp : DP.matchPercent l with
  | none => exact Or.inl ⟨rfl, rfl⟩
  | some p =>
    cases hm : DP.matchSizeMB l with
    | none => exact Or.inl ⟨rfl, rfl⟩
    | some m =>
      have hls : ({ DP.detectStreams s m with currentFileProgress := p } :
          DP.PState).lastSentProgress = s.lastSentProgress := by
        rw [show ({ DP.detectStreams s m with currentFileProgress := p } :
            DP.PState).lastSentProgress = (DP.detectStreams s m).lastSentProgress
          from rfl, detectStreams_lastSent]
      by_cases hgt :
          ⌊DP.calcCombined { DP.detectStreams s m with currentFileProgress := p }⌋ >
          ⌊({ DP.detectStreams s m with currentFileProgress := p } :
            DP.PState).lastSentProgress⌋
      · right
        refine ⟨⌊DP.calcCombined
            { DP.detectStreams s m with currentFileProgress := p }⌋, ?_, ?_, ?_⟩
        · simp [hgt]
        · rw [hls] at hgt
          exact hgt
        · simp [hgt]
      · left
        constructor
        · simp [hgt]
        · simp [hgt, hls]

/-- The emitted-payload list of `runLines` is a strictly increasing chain,
and every head payload strictly exceeds the floor of the incoming
`lastSentProgress`. -/
theorem runLines_chain (ls : List String) (s : DP.PState) :
    ((DP.runLines s ls).2).Chain' (· < ·) ∧
    (∀ e, ((DP.runLines s ls).2).head? = some e →
      ⌊s.lastSentProgress⌋ < e) := by
  induction ls generalizing s with
  | nil => simp [DP.runLines]
  | cons l ls ih =>
    have hrun : DP.runLines s (l :: ls) =
        ((DP.runLines (DP.parseProgressStep s l).1 ls).1,
          (DP.parseProgressStep s l).2.toList ++
            (DP.runLines (DP.parseProgressStep s l).1 ls).2) := rfl
    rcases parseProgressStep_spec s l with ⟨hnone, hkeep⟩ | ⟨r, hsome, hlt, hfloor⟩
    · rw [hrun, hnone]
      simp only [Option.toList_none, List.nil_append]
      refine ⟨(ih (DP.parseProgressStep s l).1).1, fun e he => ?_⟩
      have := (ih (DP.parseProgressStep s l).1).2 e he
      rwa [hkeep] at this
    · rw [hrun, hsome]
      simp only [Option.toList_some, List.singleton_append]
      constructor
      · rw [List.chain'_cons']
        refine ⟨fun e he => ?_, (ih (DP.parseProgressStep s l).1).1⟩
        have := (ih (DP.parseProgressStep s l).1).2 e he
        rw [hfloor] at this
        exact this
      · intro e he
        simp only [List.head?_cons, Option.some.injEq] at he
        rw [← he]
        exact hlt

/-- C2: over any sequence of output chunks, the `progress` payloads emitted
by one download's `parseProgress` are pairwise strictly increasing (no
floor value twice, never decreasing), and a payload is emitted only when
its floor strictly exceeds the floor of the stored last-sent progress. -/
theorem C2_progress_strictly_increasing (lines : List String) :
    ((DP.runLines DP.initialPState lines).2).Pairwise (· < ·) ∧
    (∀ s l r, (DP.parseProgressStep s l).2 = some r →
      ⌊s.lastSentProgress⌋ < r) := by
  constructor
  · exact List.chain'_iff_pairwise.mp (runLines_chain lines DP.initialPState).1
  · intro s l r h
    rcases parseProgressStep_spec s l with ⟨hnone, _⟩ | ⟨r', hsome, hlt, _⟩
    · rw [hnone] at h
      exact absurd h (by simp)
    · rw [hsome] at h
      cases h
      exact hlt

/-- Witness for C2: a concrete line emits 50 from the initial state, whose
stored floor is 0 < 50; a three-line feed emits the strictly increasing
list [30, 100]. -/
theorem C2_progress_strictly_increasing_witness :
    (⌊DP.initialPState.lastSentProgress⌋ < 50) ∧
    (DP.runLines DP.initialPState
      ["[download]  30.0% of ~10.00MiB", "[download] 100% of 10.00MiB",
       "[download]  50.0% of 90.00MiB"]).2.Pairwise (· < ·) := by
  refine ⟨(C2_progress_strictly_increasing []).2 DP.initialPState
      "[download]  50.0% of 10.00MiB" 50 (by decide),
    (C2_progress_strictly_increasing
      ["[download]  30.0% of ~10.00MiB", "[download] 100% of 10.00MiB",
       "[download]  50.0% of 90.00MiB"]).1⟩

/-- C7: the parser's unit conversion is binary and normalizes to megabytes:
a KiB size is divided by 1024, a MiB size taken as-is, a GiB size multiplied
by 1024; on the canonical progress line the percent 45.5 is read against
50 MB, and a 2.00GiB size reads as 2048 MB. -/
theorem C7_unit_conversion_binary :
    (∀ s v u, DP.sizeCapture s = some (v, u) →
      (DP.toLowerStr u = "kib" → DP.matchSizeMB s = some (v / 1024)) ∧
      (DP.toLowerStr u = "mib" → DP.matchSizeMB s = some v) ∧
      (DP.toLowerStr u = "gib" → DP.matchSizeMB s = some (v * 1024))) ∧
    DP.matchPercent "[download]  45.5% of 50.00MiB at  2.50MiB/s ETA 00:10" =
      some (45.5 : ℚ) ∧
    DP.matchSizeMB "[download]  45.5% of 50.00MiB at  2.50MiB/s ETA 00:10" =
      some 50 ∧
    DP.matchSizeMB "[download]  12.0% of 2.00GiB at 5.00MiB/s" = some 2048 := by
  refine ⟨?_, by decide, by decide, by decide⟩
  intro s v u h
  refine ⟨fun hu => ?_, fun hu => ?_, fun hu => ?_⟩ <;>
    simp [DP.matchSizeMB, h, DP.convertToMB, hu]

/-- Witness for C7: a 300.0KiB size figure parses to 300/1024 MB. -/
theorem C7_unit_conversion_binary_witness :
    DP.matchSizeMB "[download]   3.0% of 300.0KiB" = some (300 / 1024 : ℚ) := by
  exact (C7_unit_conversion_binary.1 "[download]   3.0% of 300.0KiB"
    300 "KiB" (by decide)).1 (by decide)

/-- C5: with a credential file present, `executeWithCookieRetry` tries the
surfaced error is the credentialed attempt's error "credErr"; with a
succeeding retry the result is `("plain", false)`. -/
theorem C5_cookie_retry_original_error_witness :
    (Cookies.executeWithCookieRetry "/srv/app" ["/srv/app/cookies.txt"]
      (.error "credErr") (.error "plainErr")).1 = .error "credErr" ∧
    (Cookies.executeWithCookieRetry "/srv/app" ["/srv/app/cookies.txt"]
      (.error "credErr") (.error "plainErr")).2 =
      [Cookies.Attempt.withCreds, Cookies.Attempt.withoutCreds] ∧
    (Cookies.executeWithCookieRetry "/srv/app" ["/srv/app/cookies.txt"]
      (.error "credErr") (.ok "plain")).1 = .ok ("plain", false) := by
  refine ⟨(C5_cookie_retry_original_error "/srv/app" ["/srv/app/cookies.txt"]
      (.error "credErr") (.error "plainErr") (by decide)).2.2.1
      "credErr" "plainErr" rfl rfl,
    (C5_cookie_retry_original_error "/srv/app" ["/srv/app/cookies.txt"]
      (.error "credErr") (.error "plainErr") (by decide)).2.1
      "credErr" rfl,
    (C5_cookie_retry_original_error "/srv/app" ["/srv/app/cookies.txt"]
      (.error "credErr") (.ok "plain") (by decide)).2.2.2
      "credErr" "plain" rfl rfl⟩

/-- `runObs` distributes over list append. -/
theorem runObs_append (s : DP.HState) (l1 l2 : List DP.Obs) :
    DP.runObs s (l1 ++ l2) =
      ((DP.runObs (DP.runObs s l1).1 l2).1,
        (DP.runObs s l1).2 ++ (DP.runObs (DP.runObs s l1).1 l2).2) := by
  induction l1 generalizing s with
  | nil => simp [DP.runObs]
  | cons o os ih => simp [DP.runObs, ih, List.append_assoc]

/-- The process-close handler always emits exactly one event, a `complete`
or an `error`. -/
theorem handleObs_procClose_events (s : DP.HState) (code : ℤ) (fe : Bool) :
    (DP.handleObs s (DP.Obs.procClose code fe)).2 = [DP.Ev.complete] ∨
    (DP.handleObs s (DP.Obs.procClose code fe)).2 = [DP.Ev.error] := by
  by_cases h : code = 0 <;> cases fe <;> simp [DP.handleObs, h]

/-- C3, counterexample: a stderr chunk carrying both an error marker and a
progress line makes the handler emit an `error` event that is followed by a
`progress` event and, at process close, a `complete` event — so the first
`complete`-or-`error` event is not the last event of the download. -/
theorem C3_terminal_not_last_counterexample :
    DP.noEventAfterTerminal (DP.fullTrace
      [DP.Obs.stderrData "ERROR: boom\n[download]  50.0% of 10.00MiB",
       DP.Obs.procClose 0 true]) = false ∧
    DP.fullTrace
      [DP.Obs.stderrData "ERROR: boom\n[download]  50.0% of 10.00MiB",
       DP.Obs.procClose 0 true] =
      [DP.Ev.start, DP.Ev.progress 0, DP.Ev.error, DP.Ev.progress 50,
       DP.Ev.complete] := by
  exact ⟨by decide, by decide⟩

/-- The process-close handler always leaves the `procClosed` flag set. -/
theorem handleObs_procClose_closed (s : DP.HState) (code : ℤ) (fe : Bool) :
    (DP.handleObs s (DP.Obs.procClose code fe)).1.procClosed = true := by
  by_cases h : code = 0 <;> cases fe <;> simp [DP.handleObs, h]

/-- Once the process `close` event has fired, the callbacks that can still
fire (heartbeat ticks and the request-close handler) emit no events, and
the flag stays set. -/
theorem runObs_post_close (post : List DP.Obs) (s : DP.HState)
    (hs : s.procClosed = true) (hpost : post.all DP.postCloseObs = true) :
    (DP.runObs s post).2 = [] ∧ (DP.runObs s post).1.procClosed = true := by
  induction post generalizing s with
  | nil => exact ⟨rfl, hs⟩
  | cons o os ih =>
    simp only [List.all_cons, Bool.and_eq_true] at hpost
    cases o with
    | stdoutData output => simp [DP.postCloseObs] at hpost
    | stderrData output => simp [DP.postCloseObs] at hpost
    | procClose code fe => simp [DP.postCloseObs] at hpost
    | procError fe => simp [DP.postCloseObs] at hpost
    | mergeTick =>
      have h1 : DP.handleObs s DP.Obs.mergeTick = (s, []) := by
        simp [DP.handleObs, hs]
      have ihs := ih s hs hpost.2
      simp only [DP.runObs, h1]
      simpa using ihs
    | reqClose b =>
      have h1 : (DP.handleObs s (DP.Obs.reqClose b)).2 = [] := rfl
      have hc : (DP.handleObs s (DP.Obs.reqClose b)).1.procClosed = true := hs
      have ihs := ih (DP.handleObs s (DP.Obs.reqClose b)).1 hc hpost.2
      simp only [DP.runObs, h1, List.nil_append]
      exact ihs

/-- C3, amended: the `complete` or `error` event emitted by the
process-close handler is the last event of the download, even when the
callbacks that can still fire afterwards — merge-heartbeat ticks and the
request-close handler — do fire, since after the close they emit nothing.
An `error` event emitted earlier is not necessarily last: the stderr
error-marker detection emits `error` and then may still emit `progress` or
`merging` events, and — like the spawn-error handler's `error` when a
process close event still follows — is followed by the close handler's own
terminal event. -/
theorem C3_close_handler_event_is_last (obs : List DP.Obs) (code : ℤ)
    (fe : Bool) (post : List DP.Obs)
    (hpost : post.all DP.postCloseObs = true) :
    (DP.fullTrace (obs ++ DP.Obs.procClose code fe :: post)).getLast? =
        some DP.Ev.complete ∨
    (DP.fullTrace (obs ++ DP.Obs.procClose code fe :: post)).getLast? =
        some DP.Ev.error := by
  have hclosed := handleObs_procClose_closed
    (DP.runObs DP.initialHState obs).1 code fe
  have hempty := runObs_post_close post _ hclosed hpost
  have hrw : DP.fullTrace (obs ++ DP.Obs.procClose code fe :: post) =
      (DP.Ev.start :: DP.Ev.progress 0 :: (DP.runObs DP.initialHState obs).2) ++
        (DP.handleObs (DP.runObs DP.initialHState obs).1
          (DP.Obs.procClose code fe)).2 := by
    unfold DP.fullTrace
    rw [runObs_append]
    simp only [DP.runObs, hempty.1, List.append_nil, List.cons_append,
      List.append_assoc]
  rcases handleObs_procClose_events (DP.runObs DP.initialHState obs).1 code fe
    with h | h
  · left
    rw [hrw, h]
    exact List.getLast?_concat _
  · right
    rw [hrw, h]
    exact List.getLast?_concat _

/-- Witness for C3's amended theorem: a download that emits progress 50,
completes, and whose heartbeat and request-close callbacks still fire after
the process close — the `complete` event is the last event of the full
trace. -/
theorem C3_close_handler_event_is_last_witness :
    ((DP.fullTrace ([DP.Obs.stdoutData "[download]  50.0% of 10.00MiB"] ++
        DP.Obs.procClose 0 true ::
          [DP.Obs.mergeTick, DP.Obs.reqClose true])).getLast? =
        some DP.Ev.complete ∨
      (DP.fullTrace ([DP.Obs.stdoutData "[download]  50.0% of 10.00MiB"] ++
        DP.Obs.procClose 0 true ::
          [DP.Obs.mergeTick, DP.Obs.reqClose true])).getLast? =
        some DP.Ev.error) ∧
    DP.fullTrace ([DP.Obs.stdoutData "[download]  50.0% of 10.00MiB"] ++
        DP.Obs.procClose 0 true ::
          [DP.Obs.mergeTick, DP.Obs.reqClose true]) =
      [DP.Ev.start, DP.Ev.progress 0, DP.Ev.progress 50, DP.Ev.complete] :=
  ⟨C3_close_handler_event_is_last
      [DP.Obs.stdoutData "[download]  50.0% of 10.00MiB"] 0 true
      [DP.Obs.mergeTick, DP.Obs.reqClose true] (by decide),
    by decide⟩

/-- The `downloadSuccess` flag is set exactly by emitting `complete`. -/
theorem handleObs_success (s : DP.HState) (o : DP.Obs) :
    ((DP.handleObs s o).1.downloadSuccess = true) ↔
      (s.downloadSuccess = true ∨ DP.Ev.complete ∈ (DP.handleObs s o).2) := by
  cases o with
  | stdoutData output =>
    by_cases hm : DP.isMergerOutput output && !s.isMerging <;>
      cases hp : (DP.parseProgressStep
          (if DP.isMergerOutput output && !s.isMerging then
            { s with isMerging := true } else s).ps output).2 <;>
      simp [DP.handleObs, hm, hp]
  | stderrData output =>
    by_cases he : DP.isErrorOutput output <;>
      by_cases hm : DP.isMergerOutput output && !s.isMerging <;>
      cases hp : (DP.parseProgressStep
          (if DP.isMergerOutput output && !s.isMerging then
            { s with isMerging := true } else s).ps output).2 <;>
      simp [DP.handleObs, he, hm, hp]
  | mergeTick =>
    by_cases h : s.isMerging && !s.procClosed <;> simp [DP.handleObs, h]
  | procClose code fe =>
    by_cases h : code = 0 <;> cases fe <;> simp [DP.handleObs, h]
  | procError fe => simp [DP.handleObs]
  | reqClose fe => simp [DP.handleObs]

/-- Over a whole run, `downloadSuccess` holds iff a `complete` event was
emitted. -/
theorem runObs_success (s : DP.HState) (obs : List DP.Obs) :
    ((DP.runObs s obs).1.downloadSuccess = true) ↔
      (s.downloadSuccess = true ∨ DP.Ev.complete ∈ (DP.runObs s obs).2) := by
  induction obs generalizing s with
  | nil => simp [DP.runObs]
  | cons o os ih =>
    have hstep := handleObs_success s o
    have hrec := ih (DP.handleObs s o).1
    simp only [DP.runObs, List.mem_append]
    rw [hrec, hstep]
    tauto

/-- C8: on client disconnect the subprocess is killed, and (given the
staging file exists at that moment) the `req.on('close')` handler removes
it iff no `complete` event was emitted before the close; after a recorded
success it leaves the file for the file-serving endpoint. -/
theorem C8_disconnect_kill_and_cleanup (obs : List DP.Obs) (fe : Bool) :
    (DP.handleObs (DP.runObs DP.initialHState obs).1
        (DP.Obs.reqClose fe)).1.procKilled = true ∧
    (DP.reqCloseDeletes (DP.runObs DP.initialHState obs).1 true = true ↔
      DP.Ev.complete ∉ (DP.runObs DP.initialHState obs).2) := by
  constructor
  · simp [DP.handleObs]
  · have h := runObs_success DP.initialHState obs
    simp only [DP.initialHState, Bool.false_eq_true, false_or] at h
    simp only [DP.reqCloseDeletes, Bool.and_true, Bool.not_eq_true']
    rw [Bool.eq_false_iff]
    exact not_congr h

/-- `cleanup` invocations after the guard has been set are no-ops on the
whole remaining trigger sequence. -/
theorem runCleanups_done (s : Lifecycle.CState) (h : s.cleanupDone = true)
    (l : List String) : Lifecycle.runCleanups s l = s := by
  induction l with
  | nil => rfl
  | cons r rs ih => simp [Lifecycle.runCleanups, Lifecycle.cleanup, h, ih]

/-- C4: the first `cleanup` invocation sets the guard and runs the removal
body; any invocation after the guard is set returns without touching the
filesystem; over any non-empty trigger sequence, in any order, the removal
body runs exactly once. -/
theorem C4_cleanup_exactly_once (reasons : List String) (h : reasons ≠ []) :
    (∀ r, Lifecycle.cleanup Lifecycle.initialCState r =
      { cleanupDone := true, unlinkRuns := 1 }) ∧
    (∀ s r, s.cleanupDone = true → Lifecycle.cleanup s r = s) ∧
    (Lifecycle.runCleanups Lifecycle.initialCState reasons).unlinkRuns = 1 := by
  refine ⟨fun r => rfl, fun s r hs => by simp [Lifecycle.cleanup, hs], ?_⟩
  cases reasons with
  | nil => exact absurd rfl h
  | cons r rs =>
    show (Lifecycle.runCleanups
      (Lifecycle.cleanup Lifecycle.initialCState r) rs).unlinkRuns = 1
    rw [show Lifecycle.cleanup Lifecycle.initialCState r =
      { cleanupDone := true, unlinkRuns := 1 } from rfl]
    rw [runCleanups_done _ rfl]

/-- Witness for C4: three triggers (delivery, disconnect, stream error)
firing in sequence delete the staging file exactly once, and an invocation
on an already-cleaned state changes nothing. -/
theorem C4_cleanup_exactly_once_witness :
    (Lifecycle.runCleanups Lifecycle.initialCState
      ["download complete", "request closed/cancelled",
       "stream error"]).unlinkRuns = 1 ∧
    Lifecycle.cleanup { cleanupDone := true, unlinkRuns := 1 } "stream error" =
      { cleanupDone := true, unlinkRuns := 1 } :=
  ⟨(C4_cleanup_exactly_once
      ["download complete", "request closed/cancelled", "stream error"]
      (by decide)).2.2,
    (C4_cleanup_exactly_once ["download complete"] (by decide)).2.1
      { cleanupDone := true, unlinkRuns := 1 } "stream error" rfl⟩

/-- C6: when the format-inspection call fails, the handler still produces a
complete decision (the error is absorbed, never propagated): `isAudio` is
the `'251'`/`'140'` identifier-substring test, `hasAudio` holds when the
combined hint is `'true'` or the identifier matched, and the effective
format expression is the raw id when `hasAudio` and `id + "+bestaudio"`
otherwise. -/
theorem C6_inspection_failure_fallback (e formatId : String)
    (isCombined : Option String) :
    (Negotiate.formatDecision (.error e) formatId isCombined).1 =
      (stringIncludes formatId "251" || stringIncludes formatId "140") ∧
    (Negotiate.formatDecision (.error e) formatId isCombined).2 =
      ((isCombined == some "true") ||
        (Negotiate.formatDecision (.error e) formatId isCombined).1) ∧
    (∀ hasAudio, Negotiate.formatToDownload hasAudio formatId =
      if hasAudio then formatId else formatId ++ "+bestaudio") :=
  ⟨rfl, rfl, fun _ => rfl⟩

/-- C9: the security gate of the file-serving handler is a plain string
prefix test on the normalized path, not directory containment: the path
`/srv/app/downloadsEvil/leak.mp4` passes the gate (no 403) although it does
not lie within `/srv/app/downloads`, while genuine `..`-traversal is
rejected and in-directory files pass. -/
theorem C9_path_check_prefix_collision :
    Serve.pathAllowed "/srv/app" "/srv/app/downloadsEvil/leak.mp4" = true ∧
    Serve.liesWithinDownloads "/srv/app" "/srv/app/downloadsEvil/leak.mp4" =
      false ∧
    Serve.pathAllowed "/srv/app" "/srv/app/downloads/../secret.txt" = false ∧
    Serve.pathAllowed "/srv/app" "/srv/app/downloads/file.mp4" = true ∧
    Serve.liesWithinDownloads "/srv/app" "/srv/app/downloads/file.mp4" =
      true := by
  exact ⟨by decide, by decide, by decide, by decide, by decide⟩
